import Mathlib

/-!
Shallow embedding of the pointer-input and element-interaction layer of the
`rod` browser-automation library (files `mouse.go` and `element.go`), together
with theorems checking the specification's claims about it.

Remote protocol calls (`Page.Call`, script evaluation, hit tests, node
resolution) are modelled by explicit oracles: a pure function gives the outcome
of each call, and each operation additionally returns the trace of calls it
attempted, so that claims about "no further call is issued" are statable.
-/

namespace Rod

/-- Opaque protocol-level error (errors are propagated verbatim, never
inspected, by the code under study). -/
abbrev Err := String

/-! ### Mouse (src/mouse.go)

`Mouse` holds the cursor position and the ordered sequence of currently
pressed buttons.  `Input.dispatchMouseEvent` calls are modelled by a
`DispatchEnv` oracle giving the outcome of the i-th protocol call made by
this mouse, plus a trace of the events that were dispatched. -/

inductive MouseEventType where
  | mouseMoved
  | mousePressed
  | mouseReleased
deriving DecidableEq, Repr

/-- One `Input.dispatchMouseEvent` payload, with exactly the fields the Go
code sends (`UpE` sends no `modifiers` field, hence the `Option`). -/
structure MouseEvent where
  type : MouseEventType
  x : Int
  y : Int
  button : String
  buttons : Nat
  clickCount : Option Int
  modifiers : Option Int
deriving DecidableEq, Repr

/-- The mutable fields of `Mouse`: cursor position and pressed buttons
(in press order). -/
structure Mouse where
  x : Int
  y : Int
  buttons : List String
deriving DecidableEq, Repr

/-- Outcome oracle: `env i` is the outcome of the i-th dispatch call
(`none` = success, `some e` = the remote call fails with `e`). -/
abbrev DispatchEnv := Nat → Option Err

/-- Model of `input.EncodeMouseButton` (lib/input, external to the studied files):
from the pressed sequence computes the `button` string and `buttons`
bitmask sent on the wire.  Kept fully abstract: no claim depends on its
values. -/
abbrev EncodeFn := List String → String × Nat

/-- Mouse state threaded through operations: the `Mouse` fields, the number
of dispatch calls made so far, and the trace of dispatched events. -/
structure MState where
  mouse : Mouse
  calls : Nat
  trace : List MouseEvent
deriving DecidableEq, Repr

/-- One `page.Call("Input.dispatchMouseEvent", …)`: consumes the next oracle
outcome and records the event as attempted. -/
def dispatchMouseEvent (env : DispatchEnv) (ev : MouseEvent) (s : MState) :
    Option Err × MState :=
  (env s.calls, { s with calls := s.calls + 1, trace := s.trace ++ [ev] })

/-- The loop body of `Mouse.MoveE`: `steps` iterations, each dispatching one
`mouseMoved` event at the position advanced by the (fixed) stride and
committing the position only after a successful dispatch. -/
def moveLoop (env : DispatchEnv) (button : String) (buttons : Nat)
    (modifiers : Int) (stepX stepY : Int) : Nat → MState → Except Err Unit × MState
  | 0, s => (.ok (), s)
  | n + 1, s =>
    let toX := s.mouse.x + stepX
    let toY := s.mouse.y + stepY
    let ev : MouseEvent :=
      { type := .mouseMoved, x := toX, y := toY, button := button,
        buttons := buttons, clickCount := none, modifiers := some modifiers }
    match dispatchMouseEvent env ev s with
    | (some e, s') => (.error e, s')
    | (none, s') =>
      moveLoop env button buttons modifiers stepX stepY n
        { s' with mouse := { s'.mouse with x := toX, y := toY } }

/-- Go function `Mouse.MoveE(x, y, steps)`: clamps `steps` to at least 1, computes the
per-axis stride once with Go's truncated integer division, encodes the
currently pressed buttons once, and runs the move loop. -/
def Mouse.MoveE (encode : EncodeFn) (env : DispatchEnv) (modifiers : Int)
    (s : MState) (x y : Int) (steps : Int) : Except Err Unit × MState :=
  let steps' := if steps < 1 then 1 else steps
  let stepX := (x - s.mouse.x).tdiv steps'
  let stepY := (y - s.mouse.y).tdiv steps'
  let bb := encode s.mouse.buttons
  moveLoop env bb.1 bb.2 modifiers stepX stepY steps'.toNat s

/-- Go function `Mouse.DownE(button, clicks)`: appends the button unconditionally,
encodes the appended sequence, dispatches a `mousePressed` event, and
commits the appended sequence only on success. -/
def Mouse.DownE (encode : EncodeFn) (env : DispatchEnv) (modifiers : Int)
    (s : MState) (button : String) (clicks : Int) : Except Err Unit × MState :=
  let toButtons := s.mouse.buttons ++ [button]
  let bb := encode toButtons
  let ev : MouseEvent :=
    { type := .mousePressed, x := s.mouse.x, y := s.mouse.y, button := button,
      buttons := bb.2, clickCount := some clicks, modifiers := some modifiers }
  match dispatchMouseEvent env ev s with
  | (some e, s') => (.error e, s')
  | (none, s') => (.ok (), { s' with mouse := { s'.mouse with buttons := toButtons } })

/-- Go function `Mouse.UpE(button, clicks)`: filters out every occurrence of the button,
encodes the filtered sequence, dispatches a `mouseReleased` event (the Go
code sends no `modifiers` here), and commits the filtered sequence only on
success. -/
def Mouse.UpE (encode : EncodeFn) (env : DispatchEnv)
    (s : MState) (button : String) (clicks : Int) : Except Err Unit × MState :=
  let toButtons := s.mouse.buttons.filter (fun btn => btn != button)
  let bb := encode toButtons
  let ev : MouseEvent :=
    { type := .mouseReleased, x := s.mouse.x, y := s.mouse.y, button := button,
      buttons := bb.2, clickCount := some clicks, modifiers := none }
  match dispatchMouseEvent env ev s with
  | (some e, s') => (.error e, s')
  | (none, s') => (.ok (), { s' with mouse := { s'.mouse with buttons := toButtons } })

/-- Constant `defaultMouseButton` of src/mouse.go. -/
def defaultMouseButton : String := "left"

/-- Go function `Mouse.ClickE(button)`: defaults the button, then `DownE` with click
count 1; on its error returns immediately, otherwise `UpE` with click
count 1. -/
def Mouse.ClickE (encode : EncodeFn) (env : DispatchEnv) (modifiers : Int)
    (s : MState) (button : String) : Except Err Unit × MState :=
  let btn := if button = "" then defaultMouseButton else button
  match Mouse.DownE encode env modifiers s btn 1 with
  | (.error e, s') => (.error e, s')
  | (.ok _, s') => Mouse.UpE encode env s' btn 1

/-! ### Element geometry (element.go: Interactable, Shape) -/

/-- Identifier of a DOM element returned by a hit test. -/
abbrev ElemId := Nat

/-- Modelled from the spec: `proto.DOMQuad` (lib/proto, not among the studied
files) is one rectangle of an element's on-screen shape; the code under study
only uses the center point of a quad, so a quad is modelled by its center. -/
structure Quad where
  centerX : Int
  centerY : Int
deriving DecidableEq, Repr

/-- The remote calls `Element.Interactable` can make, in order: fetch the
shape, evaluate the scroll offset, hit-test a point, run the in-page
containment check. -/
inductive ICall where
  | getShape
  | evalScroll
  | hitTest (x y : Int)
  | containsCheck (id : ElemId)
deriving DecidableEq, Repr

/-- Which element a NotInteractable error names. -/
inductive NIWho where
  | self
  | covering (id : ElemId)
deriving DecidableEq, Repr

/-- Errors of `Element.Interactable`: a propagated protocol error, or
`ErrNotInteractable` naming an element and carrying a message. -/
inductive IErr where
  | protocol (e : Err)
  | notInteractable (who : NIWho) (msg : String)
deriving DecidableEq, Repr

/-- Oracle for the remote calls `Interactable` makes: the shape fetch, the
scroll-offset evaluation, the hit test at a point, and the in-page
containment check of the hit element against the target. -/
structure IEnv where
  shapeRes : Except Err (List Quad)
  scrollRes : Except Err (Int × Int)
  hitRes : Int → Int → Except Err ElemId
  containsRes : ElemId → Except Err Bool

/-- Go function `Element.Interactable`: fetch the shape; empty shape fails with
NotInteractable naming the element itself; otherwise read the scroll
offset, hit-test at the first quad's center translated by the scroll
offset, check containment in-page, and either return the shape or fail
with NotInteractable naming the covering element.  Also returns the trace
of remote calls attempted. -/
def Element.Interactable (env : IEnv) : Except IErr (List Quad) × List ICall :=
  match env.shapeRes with
  | .error e => (.error (.protocol e), [.getShape])
  | .ok shape =>
    match shape with
    | [] => (.error (.notInteractable .self "element has no visible shape"), [.getShape])
    | q0 :: _ =>
      match env.scrollRes with
      | .error e => (.error (.protocol e), [.getShape, .evalScroll])
      | .ok scroll =>
        let px := q0.centerX + scroll.1
        let py := q0.centerY + scroll.2
        match env.hitRes px py with
        | .error e => (.error (.protocol e), [.getShape, .evalScroll, .hitTest px py])
        | .ok elAtPoint =>
          match env.containsRes elAtPoint with
          | .error e =>
            (.error (.protocol e),
              [.getShape, .evalScroll, .hitTest px py, .containsCheck elAtPoint])
          | .ok yes =>
            if yes then
              (.ok shape,
                [.getShape, .evalScroll, .hitTest px py, .containsCheck elAtPoint])
            else
              (.error (.notInteractable (.covering elAtPoint)
                  "another element covers current one"),
                [.getShape, .evalScroll, .hitTest px py, .containsCheck elAtPoint])

/-! ### WaitStable (element.go) -/

/-- A shape sample, as compared by `reflect.DeepEqual` in the Go code:
the ordered list of quads. -/
abbrev ShapeV := List Quad

/-- What the `select` in the `WaitStable` loop delivers on one iteration:
either the ticker fires, or the handle's scope is cancelled. -/
inductive TickEv where
  | tick
  | cancel
deriving DecidableEq, Repr

/-- Outcome of `Element.WaitStable`: success, the scope's cancellation
error, a shape-sampling error, a visibility-wait error, or still running
(the supplied event list ran out before the loop returned). -/
inductive WSOut where
  | ok
  | canceled
  | sampleFailed (e : Err)
  | visFailed (e : Err)
  | running
deriving DecidableEq, Repr

/-- The `WaitStable` loop: on each iteration the select either observes
cancellation (returning `ctx.Err()`) or a tick; on a tick the shape is
re-sampled (`samples n` is the n-th in-loop sample), a sampling error is
returned immediately, and the loop exits successfully exactly when the new
sample equals the previous one. -/
def waitStableLoop (samples : Nat → Except Err ShapeV) :
    List TickEv → ShapeV → Nat → WSOut
  | [], _, _ => .running
  | .cancel :: _, _, _ => .canceled
  | .tick :: evs, prev, n =>
    match samples n with
    | .error e => .sampleFailed e
    | .ok cur => if prev = cur then .ok else waitStableLoop samples evs cur (n + 1)

/-- Go function `Element.WaitStable(interval)`: first waits for visibility (outcome
`vis`), then takes an initial shape sample (`shape0`), then runs the
fixed-interval sampling loop. -/
def Element.WaitStable (vis : Except Err Unit) (shape0 : Except Err ShapeV)
    (samples : Nat → Except Err ShapeV) (evs : List TickEv) : WSOut :=
  match vis with
  | .error e => .visFailed e
  | .ok _ =>
    match shape0 with
    | .error e => .sampleFailed e
    | .ok s0 => waitStableLoop samples evs s0 0

/-! ### Remove / Release (element.go) -/

/-- Go function `Element.Remove`: evaluate `this.remove()` in-page; on error return it
without calling `Release`; otherwise return `Release`'s outcome.  The `Bool`
records whether `Release` was invoked. -/
def Element.Remove (evalRemove : Except Err Unit) (releaseRes : Except Err Unit) :
    Except Err Unit × Bool :=
  match evalRemove with
  | .error e => (.error e, false)
  | .ok _ => (releaseRes, true)

/-! ### ensureParentPage (element.go)

The frame tree is modelled by `PTree`: a page with its id, the outcome of
`resolveNode(nodeID)` on it (`""` = not resolved), the outcome of its
`Elements("iframe")` listing, and its child pages.  A child whose
`Frame()` call fails is the `bad` node. -/

inductive PTree where
  | bad (e : Err)
  | mk (pid : Nat) (res : Except Err String) (elemsErr : Option Err) (kids : List PTree)
deriving Repr

/-- Result of the recursive walk: target not found anywhere, found on page
`pid` with object id `objID` (the Go code signals this with `io.EOF` after
rebinding the handle), or a protocol error that aborts the search. -/
inductive WalkRes where
  | notFound
  | found (pid : Nat) (objID : String)
  | failed (e : Err)
deriving DecidableEq, Repr

mutual

/-- One iteration of the `for` loop inside the `walk` closure of
`ensureParentPage`: derive the iframe's child page (a `bad` entry is a
failing `Frame()` call and aborts), resolve the node there (recording the
page id in the visit trace); a non-empty object id stops the entire search
without entering the child's subtree, otherwise recurse into that child's
own iframes. -/
def walkChild : PTree → WalkRes × List Nat
  | .bad e => (.failed e, [])
  | .mk pid res elemsErr kids =>
    match res with
    | .error e => (.failed e, [pid])
    | .ok objID =>
      if objID ≠ "" then (.found pid objID, [pid])
      else
        match elemsErr with
        | some e => (.failed e, [pid])
        | none =>
          match walkList kids with
          | (r, tr) => (r, pid :: tr)

/-- The `for` loop of the `walk` closure over a page's iframe list, in
document order: only a `notFound` child outcome advances to the next
sibling; `found` (the Go code's `io.EOF`) and errors stop the loop. -/
def walkList : List PTree → WalkRes × List Nat
  | [] => (.notFound, [])
  | c :: rest =>
    match walkChild c with
    | (.notFound, tr) =>
      match walkList rest with
      | (r, tr') => (r, tr ++ tr')
    | (r, tr) => (r, tr)

end

/-- The two rebindable fields of the element handle: its owning page and
its remote object reference. -/
structure Handle where
  pageId : Nat
  objectID : String
deriving DecidableEq, Repr

/-- Go function `Element.ensureParentPage(nodeID, objID)`: if the current page already
has the object, no-op; otherwise list the current page's iframes and walk
them depth-first; `io.EOF` (modelled as `found`) rebinds the handle and is
converted to success; a protocol error is returned; exhausting the tree is
success with the handle unchanged.  Also returns the visit trace. -/
def Element.ensureParentPage (hasElement : Except Err Bool)
    (rootElems : Except Err (List PTree)) (h : Handle) :
    Except Err Unit × Handle × List Nat :=
  match hasElement with
  | .error e => (.error e, h, [])
  | .ok true => (.ok (), h, [])
  | .ok false =>
    match rootElems with
    | .error e => (.error e, h, [])
    | .ok kids =>
      match walkList kids with
      | (.notFound, tr) => (.ok (), h, tr)
      | (.failed e, tr) => (.error e, h, tr)
      | (.found pid objID, tr) => (.ok (), ⟨pid, objID⟩, tr)

/-- The list of `mouseMoved` events a successful `MoveE` dispatches: `n`
events, each advancing by the same fixed stride. -/
def moveEvents (b : String) (bs : Nat) (m : Int) (x0 y0 sx sy : Int) :
    Nat → List MouseEvent
  | 0 => []
  | n + 1 =>
    { type := .mouseMoved, x := x0 + sx, y := y0 + sy, button := b, buttons := bs,
      clickCount := none, modifiers := some m } ::
      moveEvents b bs m (x0 + sx) (y0 + sy) sx sy n

/-- The event one successful move step dispatches from state `s`. -/
def moveStepEvent (b : String) (bs : Nat) (m : Int) (sx sy : Int)
    (s : MState) : MouseEvent :=
  { type := .mouseMoved, x := s.mouse.x + sx, y := s.mouse.y + sy, button := b,
    buttons := bs, clickCount := none, modifiers := some m }

/-- The state after one successful move step from state `s`. -/
def moveStepState (b : String) (bs : Nat) (m : Int) (sx sy : Int)
    (s : MState) : MState :=
  { mouse := { x := s.mouse.x + sx, y := s.mouse.y + sy,
               buttons := s.mouse.buttons },
    calls := s.calls + 1,
    trace := s.trace ++ [moveStepEvent b bs m sx sy s] }

/-- Frame with page id 211, three levels deep, holding the target node. -/
def frame211 : PTree := .mk 211 (.ok "obj-in-deepest") none []

/-- Frame with page id 21, two levels deep, not holding the target. -/
def frame21 : PTree := .mk 21 (.ok "") none [frame211]

/-- Frame with page id 2, second top-level iframe, not holding the target. -/
def frame2 : PTree := .mk 2 (.ok "") none [frame21]

/-- Frame with page id 11, nested in the first top-level iframe. -/
def frame11 : PTree := .mk 11 (.ok "") none []

/-- Frame with page id 1, first top-level iframe, not holding the target. -/
def frame1 : PTree := .mk 1 (.ok "") none [frame11]

/-- Initial mouse state used by concrete scenarios: cursor at the origin,
no pressed buttons, no calls made, empty trace. -/
def mstate0 : MState := ⟨⟨0, 0, []⟩, 0, []⟩

/-! ### Helper lemmas -/

/-- Truncated remainder by a positive divisor is strictly above its
negation (companion of `Int.tmod_lt_of_pos`). -/
theorem tmod_gt_neg (a b : Int) (hb : 0 < b) : -b < a.tmod b := by
  rcases le_or_lt 0 a with ha | ha
  · have h := Int.tmod_nonneg b ha
    omega
  · have h1 : (-a).tmod b < b := Int.tmod_lt_of_pos (-a) hb
    have h2 : a.tmod b = -((-a).tmod b) := by
      rw [Int.tmod_def, Int.tmod_def, Int.neg_tdiv]
      ring
    omega


/-! ### Claim theorems -/

/-- Claim C10: `Remove` first evaluates the in-page node removal and only
then calls `Release`; if the removal evaluation fails, `Remove` returns that
error and `Release` is not invoked. -/
theorem C10_remove_release_order :
    (∀ (e : Err) (releaseRes : Except Err Unit),
      Element.Remove (.error e) releaseRes = (.error e, false)) ∧
    (∀ releaseRes : Except Err Unit,
      Element.Remove (.ok ()) releaseRes = (releaseRes, true)) :=
  ⟨fun _ _ => rfl, fun _ => rfl⟩


/-- Claim C8: on a 3-level nested iframe tree whose deepest frame holds the
target node, the resolver relocates the handle to that deepest frame
(page 211), and the traversal visits frames in document order: the first
top-level iframe (1), then its nested child (11), then the second top-level
iframe (2) and its descendants (21, then 211) — each frame before its own
nested children. -/
theorem C8_three_level_relocation :
    Element.ensureParentPage (.ok false) (.ok [frame1, frame2]) ⟨0, "stale"⟩
      = (.ok (), ⟨211, "obj-in-deepest"⟩, [1, 11, 2, 21, 211]) := by
  simp [Element.ensureParentPage, walkList, walkChild,
    frame1, frame11, frame2, frame21, frame211]

/-- Claim C3: `Interactable` first fetches the shape; an empty shape fails
with NotInteractable naming the element itself ("no visible shape") with no
further call — in particular no hit test; otherwise it hit-tests at the
center of the first quad translated by the scroll offset, checks in-page
containment of the hit element, and returns the shape when contained or
fails with NotInteractable naming the covering element when not. -/
theorem C3_interactable_spec :
    (∀ env : IEnv, env.shapeRes = .ok [] →
      Element.Interactable env =
        (.error (.notInteractable .self "element has no visible shape"),
          [.getShape])) ∧
    (∀ (env : IEnv) (x y : Int), env.shapeRes = .ok [] →
      ICall.hitTest x y ∉ (Element.Interactable env).2) ∧
    (∀ (env : IEnv) (q0 : Quad) (qs : List Quad) (sx sy : Int)
        (hid : ElemId) (b : Bool),
      env.shapeRes = .ok (q0 :: qs) → env.scrollRes = .ok (sx, sy) →
      env.hitRes (q0.centerX + sx) (q0.centerY + sy) = .ok hid →
      env.containsRes hid = .ok b →
      Element.Interactable env =
        (if b then .ok (q0 :: qs)
         else .error (.notInteractable (.covering hid)
             "another element covers current one"),
         [.getShape, .evalScroll, .hitTest (q0.centerX + sx) (q0.centerY + sy),
          .containsCheck hid])) := by
  refine ⟨?_, ?_, ?_⟩
  · intro env h
    simp [Element.Interactable, h]
  · intro env x y h
    simp [Element.Interactable, h]
  · intro env q0 qs sx sy hid b h1 h2 h3 h4
    simp only [Element.Interactable, h1, h2, h3, h4]
    cases b <;> simp

/-- Witness for C3 at concrete oracles: an element with one quad centered at
(5, 6), scroll offset (100, 200), hit test at (105, 206) returning element 9,
which the containment check rejects. -/
theorem C3_interactable_spec_witness :
    Element.Interactable
        ⟨.ok [⟨5, 6⟩], .ok (100, 200), fun _ _ => .ok 9, fun _ => .ok false⟩
      = (.error (.notInteractable (.covering 9) "another element covers current one"),
         [.getShape, .evalScroll, .hitTest 105 206, .containsCheck 9]) := by
  have h := C3_interactable_spec.2.2
      ⟨.ok [⟨5, 6⟩], .ok (100, 200), fun _ _ => .ok 9, fun _ => .ok false⟩
      ⟨5, 6⟩ [] 100 200 9 false rfl rfl rfl rfl
  simpa using h

/-- Any outcome other than `notFound` short-circuits the walk: siblings
listed after the stopping child are never visited. -/
theorem walkList_append_stop :
    ∀ (l1 l2 : List PTree) (r : WalkRes) (tr : List Nat), r ≠ .notFound →
      walkList l1 = (r, tr) → walkList (l1 ++ l2) = (r, tr) := by
  intro l1
  induction l1 with
  | nil =>
    intro l2 r tr hr h
    simp [walkList] at h
    exact absurd h.1.symm hr
  | cons c t ih =>
    intro l2 r tr hr h
    rcases hc : walkChild c with ⟨rc, trc⟩
    rw [List.cons_append]
    rw [walkList, hc] at h ⊢
    cases rc with
    | notFound =>
      rcases ht : walkList t with ⟨rt, trt⟩
      rw [ht] at h
      simp only at h
      cases rt with
      | notFound =>
        rw [Prod.mk.injEq] at h
        exact absurd h.1.symm hr
      | found p o =>
        rw [ih l2 _ _ (by simp) ht]
        simpa using h
      | failed e =>
        rw [ih l2 _ _ (by simp) ht]
        simpa using h
    | found p o => simpa using h
    | failed e => simpa using h

/-- Claim C4: `EnsureOwningPage` is a no-op when the current page already
recognizes the object; otherwise it walks the iframes depth-first, the first
successful resolution rebinds the handle's page and object reference and
stops the entire search (a resolving child's own subtree is not entered, and
remaining siblings are never visited); any protocol error aborts the whole
search and is returned; exhausting the tree returns no error and leaves the
handle unchanged. -/
theorem C4_ensure_owning_page :
    (∀ (rootElems : Except Err (List PTree)) (h : Handle),
      Element.ensureParentPage (.ok true) rootElems h = (.ok (), h, [])) ∧
    (∀ (e : Err) (rootElems : Except Err (List PTree)) (h : Handle),
      Element.ensureParentPage (.error e) rootElems h = (.error e, h, [])) ∧
    (∀ (kids : List PTree) (pid : Nat) (obj : String) (tr : List Nat) (h : Handle),
      walkList kids = (.found pid obj, tr) →
      Element.ensureParentPage (.ok false) (.ok kids) h = (.ok (), ⟨pid, obj⟩, tr)) ∧
    (∀ (pid : Nat) (obj : String) (elemsErr : Option Err) (kids : List PTree),
      obj ≠ "" → walkChild (.mk pid (.ok obj) elemsErr kids) = (.found pid obj, [pid])) ∧
    (∀ (l1 l2 : List PTree) (r : WalkRes) (tr : List Nat), r ≠ .notFound →
      walkList l1 = (r, tr) → walkList (l1 ++ l2) = (r, tr)) ∧
    (∀ (kids : List PTree) (e : Err) (tr : List Nat) (h : Handle),
      walkList kids = (.failed e, tr) →
      Element.ensureParentPage (.ok false) (.ok kids) h = (.error e, h, tr)) ∧
    (∀ (e : Err) (h : Handle),
      Element.ensureParentPage (.ok false) (.error e) h = (.error e, h, [])) ∧
    (∀ (kids : List PTree) (tr : List Nat) (h : Handle),
      walkList kids = (.notFound, tr) →
      Element.ensureParentPage (.ok false) (.ok kids) h = (.ok (), h, tr)) := by
  refine ⟨fun _ _ => rfl, fun _ _ _ => rfl, ?_, ?_, walkList_append_stop, ?_, fun _ _ => rfl, ?_⟩
  · intro kids pid obj tr h hw
    simp [Element.ensureParentPage, hw]
  · intro pid obj elemsErr kids hobj
    simp [walkChild, hobj]
  · intro kids e tr h hw
    simp [Element.ensureParentPage, hw]
  · intro kids tr h hw
    simp [Element.ensureParentPage, hw]

/-- Witness for C4 at a concrete tree: a single iframe (page 7) that
resolves the node to object "o7" rebinds the handle, and appending a
further sibling (page 8) does not change the outcome. -/
theorem C4_ensure_owning_page_witness :
    Element.ensureParentPage (.ok false) (.ok [PTree.mk 7 (.ok "o7") none []])
        ⟨0, "stale"⟩ = (.ok (), ⟨7, "o7"⟩, [7]) ∧
    walkList [PTree.mk 7 (.ok "o7") none [], PTree.mk 8 (.ok "") none []]
      = (.found 7 "o7", [7]) := by
  have h1 := C4_ensure_owning_page.2.2.1 [PTree.mk 7 (.ok "o7") none []] 7 "o7" [7]
      ⟨0, "stale"⟩ (by simp [walkList, walkChild])
  have h2 := C4_ensure_owning_page.2.2.2.2.1 [PTree.mk 7 (.ok "o7") none []]
      [PTree.mk 8 (.ok "") none []] (.found 7 "o7") [7] (by simp)
      (by simp [walkList, walkChild])
  exact ⟨h1, h2⟩


/-- One successful iteration of the move loop advances to `moveStepState`. -/
theorem moveLoop_succ_step (env : DispatchEnv) (b : String) (bs : Nat) (m : Int)
    (sx sy : Int) (n : Nat) (s : MState) (h0 : env s.calls = none) :
    moveLoop env b bs m sx sy (n + 1) s =
      moveLoop env b bs m sx sy n (moveStepState b bs m sx sy s) := by
  simp [moveLoop, dispatchMouseEvent, h0, moveStepState, moveStepEvent]

/-- When every dispatch succeeds, the move loop runs all `n` steps: the
cursor advances by `n` strides, the pressed buttons are untouched, `n`
calls are consumed, and the trace gains the `n` stride-advanced events. -/
theorem moveLoop_ok (env : DispatchEnv) (b : String) (bs : Nat) (m : Int)
    (sx sy : Int) :
    ∀ (n : Nat) (s : MState), (∀ i, i < n → env (s.calls + i) = none) →
      ∃ s', moveLoop env b bs m sx sy n s = (.ok (), s') ∧
        s'.mouse.x = s.mouse.x + n * sx ∧
        s'.mouse.y = s.mouse.y + n * sy ∧
        s'.mouse.buttons = s.mouse.buttons ∧
        s'.calls = s.calls + n ∧
        s'.trace = s.trace ++ moveEvents b bs m s.mouse.x s.mouse.y sx sy n := by
  intro n
  induction n with
  | zero =>
    intro s _
    exact ⟨s, rfl, by simp [moveEvents]⟩
  | succ n ih =>
    intro s h
    have h0 : env s.calls = none := by simpa using h 0 (Nat.succ_pos n)
    obtain ⟨s', hrun, hx, hy, hb, hc, ht⟩ := ih (moveStepState b bs m sx sy s)
        (by
          intro i hi
          simpa [moveStepState, Nat.add_assoc, Nat.add_comm 1 i]
            using h (i + 1) (by omega))
    refine ⟨s', by rw [moveLoop_succ_step env b bs m sx sy n s h0]; exact hrun,
      ?_, ?_, by simpa [moveStepState] using hb,
      by simp [moveStepState] at hc; omega, ?_⟩
    · rw [hx]; simp [moveStepState]; ring
    · rw [hy]; simp [moveStepState]; ring
    · rw [ht]; simp [moveStepState, moveStepEvent, moveEvents]

/-- When the first `j` dispatches succeed and the next fails with `e`, the
move loop (run for more than `j` steps) returns `e` with the cursor at the
position committed by the `j` successful steps and the buttons untouched. -/
theorem moveLoop_failed (env : DispatchEnv) (b : String) (bs : Nat) (m : Int)
    (sx sy : Int) :
    ∀ (j n : Nat) (s : MState) (e : Err), j < n →
      (∀ i, i < j → env (s.calls + i) = none) → env (s.calls + j) = some e →
      ∃ s', moveLoop env b bs m sx sy n s = (.error e, s') ∧
        s'.mouse.x = s.mouse.x + j * sx ∧
        s'.mouse.y = s.mouse.y + j * sy ∧
        s'.mouse.buttons = s.mouse.buttons := by
  intro j
  induction j with
  | zero =>
    intro n s e hn _ hj
    obtain ⟨n', rfl⟩ : ∃ n', n = n' + 1 := ⟨n - 1, by omega⟩
    simp only [Nat.add_zero] at hj
    refine ⟨{ s with calls := s.calls + 1, trace := s.trace ++ [moveStepEvent b bs m sx sy s] },
      by simp [moveLoop, dispatchMouseEvent, hj, moveStepEvent], by simp, by simp, by simp⟩
  | succ j ih =>
    intro n s e hn h0 hj
    obtain ⟨n', rfl⟩ : ∃ n', n = n' + 1 := ⟨n - 1, by omega⟩
    have henv0 : env s.calls = none := by simpa using h0 0 (Nat.succ_pos j)
    obtain ⟨s', hrun, hx, hy, hb⟩ := ih n' (moveStepState b bs m sx sy s) e
        (by omega)
        (by
          intro i hi
          simpa [moveStepState, Nat.add_assoc, Nat.add_comm 1 i]
            using h0 (i + 1) (by omega))
        (by simpa [moveStepState, Nat.add_assoc, Nat.add_comm 1 j] using hj)
    refine ⟨s', by rw [moveLoop_succ_step env b bs m sx sy n' s henv0]; exact hrun,
      ?_, ?_, by simpa [moveStepState] using hb⟩
    · rw [hx]; simp [moveStepState]; ring
    · rw [hy]; simp [moveStepState]; ring

/-- Claim C1: `Move(x,y,steps)` treats `steps<1` as 1; the per-axis stride
is computed once as `(target − current)/steps` with truncated integer
division and the same stride is applied `steps` times (the trace equation),
so the final position is `start + steps·stride = target − tmod(delta,steps)`
— a deterministic formula of start, target and steps: with `steps=1` it is
exactly the target, with a delta divisible by `steps` it is exactly the
target, and otherwise it deviates from the target by strictly less than
`steps` units in each axis. -/
theorem C1_move_fixed_stride (encode : EncodeFn) (env : DispatchEnv)
    (modifiers : Int) (s : MState) (x y : Int) (steps n : Int)
    (hok : ∀ i, env i = none)
    (hn : n = if steps < 1 then 1 else steps) :
    (steps < 1 →
      Mouse.MoveE encode env modifiers s x y steps
        = Mouse.MoveE encode env modifiers s x y 1) ∧
    (∃ s', Mouse.MoveE encode env modifiers s x y steps = (.ok (), s') ∧
      s'.mouse.x = s.mouse.x + n * ((x - s.mouse.x).tdiv n) ∧
      s'.mouse.y = s.mouse.y + n * ((y - s.mouse.y).tdiv n) ∧
      s'.mouse.x = x - (x - s.mouse.x).tmod n ∧
      s'.mouse.y = y - (y - s.mouse.y).tmod n ∧
      (x - s'.mouse.x).natAbs < n.toNat ∧
      (y - s'.mouse.y).natAbs < n.toNat ∧
      (n ∣ x - s.mouse.x → s'.mouse.x = x) ∧
      (n ∣ y - s.mouse.y → s'.mouse.y = y) ∧
      (steps = 1 → s'.mouse.x = x ∧ s'.mouse.y = y) ∧
      s'.mouse.buttons = s.mouse.buttons ∧
      s'.trace = s.trace ++ moveEvents (encode s.mouse.buttons).1
        (encode s.mouse.buttons).2 modifiers s.mouse.x s.mouse.y
        ((x - s.mouse.x).tdiv n) ((y - s.mouse.y).tdiv n) n.toNat) := by
  have hnpos : 0 < n := by rw [hn]; split <;> omega
  have hcast : (n.toNat : Int) = n := Int.toNat_of_nonneg (by omega)
  constructor
  · intro hlt
    simp only [Mouse.MoveE]
    rw [if_pos hlt, if_neg (by norm_num)]
  · obtain ⟨s', hrun, hx, hy, hb, _, ht⟩ :=
      moveLoop_ok env (encode s.mouse.buttons).1 (encode s.mouse.buttons).2
        modifiers ((x - s.mouse.x).tdiv n) ((y - s.mouse.y).tdiv n) n.toNat s
        (fun i _ => hok _)
    rw [hcast] at hx hy
    have hmodx := Int.tdiv_add_tmod (x - s.mouse.x) n
    have hmody := Int.tdiv_add_tmod (y - s.mouse.y) n
    have hdevx : s'.mouse.x = x - (x - s.mouse.x).tmod n := by linarith
    have hdevy : s'.mouse.y = y - (y - s.mouse.y).tmod n := by linarith
    have hrun' : Mouse.MoveE encode env modifiers s x y steps = (.ok (), s') := by
      simp only [Mouse.MoveE, ← hn]
      exact hrun
    have hltx := Int.tmod_lt_of_pos (x - s.mouse.x) hnpos
    have hgtx := tmod_gt_neg (x - s.mouse.x) n hnpos
    have hlty := Int.tmod_lt_of_pos (y - s.mouse.y) hnpos
    have hgty := tmod_gt_neg (y - s.mouse.y) n hnpos
    refine ⟨s', hrun', hx, hy, hdevx, hdevy, ?_, ?_, ?_, ?_, ?_, hb, ht⟩
    · have hx' : x - s'.mouse.x = (x - s.mouse.x).tmod n := by omega
      omega
    · have hy' : y - s'.mouse.y = (y - s.mouse.y).tmod n := by omega
      omega
    · intro hd
      rw [hdevx, Int.tmod_eq_zero_of_dvd hd, sub_zero]
    · intro hd
      rw [hdevy, Int.tmod_eq_zero_of_dvd hd, sub_zero]
    · intro h1
      have hn1 : n = 1 := by rw [hn, h1]; norm_num
      rw [hdevx, hdevy, hn1, Int.tmod_one, Int.tmod_one, sub_zero, sub_zero]
      exact ⟨rfl, rfl⟩

/-- Witness for C1 at a concrete input: `steps = 0` is treated as 1. -/
theorem C1_move_fixed_stride_witness :
    Mouse.MoveE (fun l => ("left", l.length)) (fun _ => none) 0 mstate0 10 7 0
      = Mouse.MoveE (fun l => ("left", l.length)) (fun _ => none) 0 mstate0 10 7 1 :=
  (C1_move_fixed_stride (fun l => ("left", l.length)) (fun _ => none) 0 mstate0
    10 7 0 1 (fun _ => rfl) (by decide)).1 (by decide)

/-- Claim C5: state is committed only after the corresponding dispatch
succeeds.  A `Move` whose dispatch fails after `j` successful steps returns
that error with the cursor at the position of step `j` (the last successful
one) and the buttons untouched; a failed `Down` or `Up` returns the error
and leaves the mouse state unchanged. -/
theorem C5_commit_only_on_success :
    (∀ (encode : EncodeFn) (env : DispatchEnv) (modifiers : Int) (s : MState)
        (x y steps n : Int) (j : Nat) (e : Err),
      n = (if steps < 1 then 1 else steps) → (j : Int) < n →
      (∀ i, i < j → env (s.calls + i) = none) → env (s.calls + j) = some e →
      ∃ s', Mouse.MoveE encode env modifiers s x y steps = (.error e, s') ∧
        s'.mouse.x = s.mouse.x + j * ((x - s.mouse.x).tdiv n) ∧
        s'.mouse.y = s.mouse.y + j * ((y - s.mouse.y).tdiv n) ∧
        s'.mouse.buttons = s.mouse.buttons) ∧
    (∀ (encode : EncodeFn) (env : DispatchEnv) (modifiers : Int) (s : MState)
        (button : String) (clicks : Int) (e : Err),
      env s.calls = some e →
      ∃ s', Mouse.DownE encode env modifiers s button clicks = (.error e, s') ∧
        s'.mouse = s.mouse) ∧
    (∀ (encode : EncodeFn) (env : DispatchEnv) (s : MState)
        (button : String) (clicks : Int) (e : Err),
      env s.calls = some e →
      ∃ s', Mouse.UpE encode env s button clicks = (.error e, s') ∧
        s'.mouse = s.mouse) := by
  refine ⟨?_, ?_, ?_⟩
  · intro encode env modifiers s x y steps n j e hn hj hpre hfail
    have hnpos : 0 < n := by rw [hn]; split <;> omega
    have hjn : j < n.toNat := by omega
    obtain ⟨s', hrun, hx, hy, hb⟩ :=
      moveLoop_failed env (encode s.mouse.buttons).1 (encode s.mouse.buttons).2
        modifiers ((x - s.mouse.x).tdiv n) ((y - s.mouse.y).tdiv n) j n.toNat
        s e hjn hpre hfail
    refine ⟨s', ?_, hx, hy, hb⟩
    simp only [Mouse.MoveE, ← hn]
    exact hrun
  · intro encode env modifiers s button clicks e h
    refine ⟨(Mouse.DownE encode env modifiers s button clicks).2, ?_, ?_⟩
    · simp [Mouse.DownE, dispatchMouseEvent, h]
    · simp [Mouse.DownE, dispatchMouseEvent, h]
  · intro encode env s button clicks e h
    refine ⟨(Mouse.UpE encode env s button clicks).2, ?_, ?_⟩
    · simp [Mouse.UpE, dispatchMouseEvent, h]
    · simp [Mouse.UpE, dispatchMouseEvent, h]

/-- Witness for C5 at a concrete input: a 3-step move from the origin to
(9, 6) whose second dispatch fails leaves the cursor at (3, 2), the position
committed by the first (successful) step. -/
theorem C5_commit_only_on_success_witness :
    ∃ s', Mouse.MoveE (fun l => ("left", l.length))
        (fun i => if i = 1 then some "boom" else none) 0 mstate0 9 6 3
      = (.error "boom", s') ∧
      s'.mouse.x = mstate0.mouse.x + 1 * ((9 - mstate0.mouse.x).tdiv 3) ∧
      s'.mouse.y = mstate0.mouse.y + 1 * ((6 - mstate0.mouse.y).tdiv 3) ∧
      s'.mouse.buttons = mstate0.mouse.buttons := by
  have h := C5_commit_only_on_success.1 (fun l => ("left", l.length))
      (fun i => if i = 1 then some "boom" else none) 0 mstate0 9 6 3 3 1 "boom"
      (by decide) (by decide)
      (by intro i hi; interval_cases i; rfl) (by rfl)
  simpa using h

/-- Claim C2: `Down` appends the button unconditionally (no duplicate
check) and `Up` removes all occurrences (a filter, not a single removal);
hence down-left then up-left empties the sequence; down-left, down-right,
up-left leaves ["right"]; a double down-left yields ["left", "left"]; and a
single subsequent up-left removes both occurrences, emptying the
sequence. -/
theorem C2_down_appends_up_filters :
    (∀ (encode : EncodeFn) (env : DispatchEnv) (modifiers : Int) (s : MState)
        (button : String) (clicks : Int), env s.calls = none →
      ∃ s', Mouse.DownE encode env modifiers s button clicks = (.ok (), s') ∧
        s'.mouse.buttons = s.mouse.buttons ++ [button]) ∧
    (∀ (encode : EncodeFn) (env : DispatchEnv) (s : MState)
        (button : String) (clicks : Int), env s.calls = none →
      ∃ s', Mouse.UpE encode env s button clicks = (.ok (), s') ∧
        s'.mouse.buttons = s.mouse.buttons.filter (fun btn => btn != button)) ∧
    (∀ (encode : EncodeFn) (modifiers : Int),
      ((Mouse.UpE encode (fun _ => none)
          (Mouse.DownE encode (fun _ => none) modifiers mstate0 "left" 1).2
          "left" 1).2).mouse.buttons = []) ∧
    (∀ (encode : EncodeFn) (modifiers : Int),
      ((Mouse.UpE encode (fun _ => none)
          (Mouse.DownE encode (fun _ => none) modifiers
            (Mouse.DownE encode (fun _ => none) modifiers mstate0 "left" 1).2
            "right" 1).2
          "left" 1).2).mouse.buttons = ["right"]) ∧
    (∀ (encode : EncodeFn) (modifiers : Int),
      ((Mouse.DownE encode (fun _ => none) modifiers
          (Mouse.DownE encode (fun _ => none) modifiers mstate0 "left" 1).2
          "left" 1).2).mouse.buttons = ["left", "left"]) ∧
    (∀ (encode : EncodeFn) (modifiers : Int),
      ((Mouse.UpE encode (fun _ => none)
          (Mouse.DownE encode (fun _ => none) modifiers
            (Mouse.DownE encode (fun _ => none) modifiers mstate0 "left" 1).2
            "left" 1).2
          "left" 1).2).mouse.buttons = []) := by
  refine ⟨?_, ?_, ?_, ?_, ?_, ?_⟩
  · intro encode env modifiers s button clicks h
    refine ⟨(Mouse.DownE encode env modifiers s button clicks).2, ?_, ?_⟩
    · simp [Mouse.DownE, dispatchMouseEvent, h]
    · simp [Mouse.DownE, dispatchMouseEvent, h]
  · intro encode env s button clicks h
    refine ⟨(Mouse.UpE encode env s button clicks).2, ?_, ?_⟩
    · simp [Mouse.UpE, dispatchMouseEvent, h]
    · simp [Mouse.UpE, dispatchMouseEvent, h]
  · intro encode modifiers
    simp [Mouse.DownE, Mouse.UpE, dispatchMouseEvent, mstate0]
  · intro encode modifiers
    simp [Mouse.DownE, Mouse.UpE, dispatchMouseEvent, mstate0]
  · intro encode modifiers
    simp [Mouse.DownE, dispatchMouseEvent, mstate0]
  · intro encode modifiers
    simp [Mouse.DownE, Mouse.UpE, dispatchMouseEvent, mstate0]

/-- Witness for C2 at a concrete input: pressing "left" from the initial
state appends it to the (empty) pressed sequence. -/
theorem C2_down_appends_up_filters_witness :
    ∃ s', Mouse.DownE (fun l => ("left", l.length)) (fun _ => none) 0 mstate0
        "left" 1 = (.ok (), s') ∧
      s'.mouse.buttons = mstate0.mouse.buttons ++ ["left"] :=
  C2_down_appends_up_filters.1 (fun l => ("left", l.length)) (fun _ => none)
    0 mstate0 "left" 1 rfl

/-- Claim C9: releasing a button that is not pressed does not fail on that
account: the release event is still dispatched and, on success, the pressed
sequence is unchanged; after any successful `Up(b)` the sequence contains
no occurrence of `b`; and a second successful `Up(b)` leaves the sequence
unchanged — `Up` is idempotent on the pressed-button state. -/
theorem C9_up_idempotent :
    (∀ (encode : EncodeFn) (env : DispatchEnv) (s : MState) (b : String)
        (clicks : Int), env s.calls = none → b ∉ s.mouse.buttons →
      ∃ s', Mouse.UpE encode env s b clicks = (.ok (), s') ∧
        s'.mouse.buttons = s.mouse.buttons ∧
        s'.trace = s.trace ++ [⟨.mouseReleased, s.mouse.x, s.mouse.y, b,
          (encode s.mouse.buttons).2, some clicks, none⟩]) ∧
    (∀ (encode : EncodeFn) (env : DispatchEnv) (s : MState) (b : String)
        (clicks : Int), (Mouse.UpE encode env s b clicks).1 = .ok () →
      b ∉ ((Mouse.UpE encode env s b clicks).2).mouse.buttons) ∧
    (∀ (encode : EncodeFn) (env : DispatchEnv) (s : MState) (b : String)
        (clicks : Int), env s.calls = none → env (s.calls + 1) = none →
      ((Mouse.UpE encode env (Mouse.UpE encode env s b clicks).2 b
          clicks).2).mouse.buttons
        = ((Mouse.UpE encode env s b clicks).2).mouse.buttons) := by
  refine ⟨?_, ?_, ?_⟩
  · intro encode env s b clicks h hb
    have hfilter : s.mouse.buttons.filter (fun btn => btn != b) = s.mouse.buttons := by
      apply List.filter_eq_self.mpr
      intro a ha
      simp only [bne_iff_ne, ne_eq]
      rintro rfl
      exact hb ha
    refine ⟨(Mouse.UpE encode env s b clicks).2, ?_, ?_, ?_⟩
    · simp [Mouse.UpE, dispatchMouseEvent, h]
    · simp [Mouse.UpE, dispatchMouseEvent, h, hfilter]
    · simp [Mouse.UpE, dispatchMouseEvent, h, hfilter]
  · intro encode env s b clicks hok
    rcases henv : env s.calls with _ | e
    · simp [Mouse.UpE, dispatchMouseEvent, henv, List.mem_filter]
    · simp [Mouse.UpE, dispatchMouseEvent, henv] at hok
  · intro encode env s b clicks h1 h2
    simp [Mouse.UpE, dispatchMouseEvent, h1, h2, List.filter_filter]

/-- Witness for C9 at a concrete input: releasing "left" with nothing
pressed still succeeds, dispatches one release event, and leaves the
(empty) pressed sequence unchanged. -/
theorem C9_up_idempotent_witness :
    ∃ s', Mouse.UpE (fun l => ("left", l.length)) (fun _ => none) mstate0
        "left" 1 = (.ok (), s') ∧
      s'.mouse.buttons = mstate0.mouse.buttons ∧
      s'.trace = mstate0.trace ++ [⟨.mouseReleased, mstate0.mouse.x,
        mstate0.mouse.y, "left",
        ((fun (l : List String) => ("left", l.length)) mstate0.mouse.buttons).2,
        some 1, none⟩] :=
  C9_up_idempotent.1 (fun l => ("left", l.length)) (fun _ => none) mstate0
    "left" 1 rfl (by simp [mstate0])

/-- Claim C6: `Click` performs `Down` then `Up`, each with click count 1,
defaulting to the left button when none is given; if `Down` fails, `Up` is
never attempted (only the press event is dispatched) and `Down`'s error is
returned; if `Down` succeeds and `Up` fails, the successful `Down` is not
rolled back — the button stays in the pressed sequence — and `Up`'s error
is returned. -/
theorem C6_click_down_then_up :
    (∀ (encode : EncodeFn) (env : DispatchEnv) (modifiers : Int) (s : MState),
      Mouse.ClickE encode env modifiers s ""
        = Mouse.ClickE encode env modifiers s "left") ∧
    (∀ (encode : EncodeFn) (env : DispatchEnv) (modifiers : Int) (s : MState)
        (b : String) (e : Err), b ≠ "" → env s.calls = some e →
      ∃ s', Mouse.ClickE encode env modifiers s b = (.error e, s') ∧
        s'.mouse = s.mouse ∧
        s'.trace = s.trace ++ [⟨.mousePressed, s.mouse.x, s.mouse.y, b,
          (encode (s.mouse.buttons ++ [b])).2, some 1, some modifiers⟩]) ∧
    (∀ (encode : EncodeFn) (env : DispatchEnv) (modifiers : Int) (s : MState)
        (b : String) (e : Err), b ≠ "" → env s.calls = none →
      env (s.calls + 1) = some e →
      ∃ s', Mouse.ClickE encode env modifiers s b = (.error e, s') ∧
        s'.mouse.buttons = s.mouse.buttons ++ [b] ∧
        s'.trace = s.trace ++ [⟨.mousePressed, s.mouse.x, s.mouse.y, b,
          (encode (s.mouse.buttons ++ [b])).2, some 1, some modifiers⟩,
          ⟨.mouseReleased, s.mouse.x, s.mouse.y, b,
            (encode ((s.mouse.buttons ++ [b]).filter (fun btn => btn != b))).2,
            some 1, none⟩]) ∧
    (∀ (encode : EncodeFn) (env : DispatchEnv) (modifiers : Int) (s : MState)
        (b : String), b ≠ "" → env s.calls = none → env (s.calls + 1) = none →
      ∃ s', Mouse.ClickE encode env modifiers s b = (.ok (), s') ∧
        s'.mouse.buttons = (s.mouse.buttons ++ [b]).filter (fun btn => btn != b) ∧
        s'.trace = s.trace ++ [⟨.mousePressed, s.mouse.x, s.mouse.y, b,
          (encode (s.mouse.buttons ++ [b])).2, some 1, some modifiers⟩,
          ⟨.mouseReleased, s.mouse.x, s.mouse.y, b,
            (encode ((s.mouse.buttons ++ [b]).filter (fun btn => btn != b))).2,
            some 1, none⟩]) := by
  refine ⟨?_, ?_, ?_, ?_⟩
  · intro encode env modifiers s
    simp [Mouse.ClickE, defaultMouseButton]
  · intro encode env modifiers s b e hb h
    refine ⟨(Mouse.ClickE encode env modifiers s b).2, ?_, ?_, ?_⟩
    · simp [Mouse.ClickE, Mouse.DownE, dispatchMouseEvent, hb, h]
    · simp [Mouse.ClickE, Mouse.DownE, dispatchMouseEvent, hb, h]
    · simp [Mouse.ClickE, Mouse.DownE, dispatchMouseEvent, hb, h]
  · intro encode env modifiers s b e hb h1 h2
    refine ⟨(Mouse.ClickE encode env modifiers s b).2, ?_, ?_, ?_⟩
    · simp [Mouse.ClickE, Mouse.DownE, Mouse.UpE, dispatchMouseEvent, hb, h1, h2]
    · simp [Mouse.ClickE, Mouse.DownE, Mouse.UpE, dispatchMouseEvent, hb, h1, h2]
    · simp [Mouse.ClickE, Mouse.DownE, Mouse.UpE, dispatchMouseEvent, hb, h1, h2]
  · intro encode env modifiers s b hb h1 h2
    refine ⟨(Mouse.ClickE encode env modifiers s b).2, ?_, ?_, ?_⟩
    · simp [Mouse.ClickE, Mouse.DownE, Mouse.UpE, dispatchMouseEvent, hb, h1, h2]
    · simp [Mouse.ClickE, Mouse.DownE, Mouse.UpE, dispatchMouseEvent, hb, h1, h2]
    · simp [Mouse.ClickE, Mouse.DownE, Mouse.UpE, dispatchMouseEvent, hb, h1, h2]

/-- Witness for C6 at a concrete input: clicking "left" when the press
succeeds and the release fails returns the release error while "left"
remains pressed. -/
theorem C6_click_down_then_up_witness :
    ∃ s', Mouse.ClickE (fun l => ("left", l.length))
        (fun i => if i = 1 then some "up-fail" else none) 0 mstate0 "left"
      = (.error "up-fail", s') ∧
      s'.mouse.buttons = mstate0.mouse.buttons ++ ["left"] := by
  obtain ⟨s', hrun, hbtn, -⟩ := C6_click_down_then_up.2.2.1
      (fun l => ("left", l.length)) (fun i => if i = 1 then some "up-fail" else none)
      0 mstate0 "left" "up-fail" (by decide) rfl rfl
  exact ⟨s', hrun, hbtn⟩

/-- While consecutive shape samples keep differing, the sampling loop never
returns success, whatever the tick/cancel schedule. -/
theorem waitStableLoop_ne_ok (samples : Nat → Except Err ShapeV)
    (g : Nat → ShapeV) (hs : ∀ i, samples i = .ok (g (i + 1)))
    (hd : ∀ i, g i ≠ g (i + 1)) :
    ∀ (evs : List TickEv) (n : Nat), waitStableLoop samples evs (g n) n ≠ .ok := by
  intro evs
  induction evs with
  | nil => intro n; simp [waitStableLoop]
  | cons ev rest ih =>
    intro n
    cases ev with
    | cancel => simp [waitStableLoop]
    | tick =>
      simp only [waitStableLoop, hs n]
      rw [if_neg (hd n)]
      exact ih (n + 1)

/-- When the first stabilization happens at sample `k` (all earlier
consecutive samples differ) and at least `k + 1` ticks are available, the
sampling loop returns success. -/
theorem waitStableLoop_ok_of_stable (samples : Nat → Except Err ShapeV)
    (g : Nat → ShapeV) (k : Nat) (hs : ∀ i, samples i = .ok (g (i + 1))) :
    ∀ (m n : Nat), n ≤ k → k < n + m →
      (∀ j, n ≤ j → j < k → g j ≠ g (j + 1)) → g k = g (k + 1) →
      waitStableLoop samples (List.replicate m .tick) (g n) n = .ok := by
  intro m
  induction m with
  | zero => intro n h1 h2 _ _; omega
  | succ m ih =>
    intro n hnk hkm hd hst
    rw [List.replicate_succ]
    simp only [waitStableLoop, hs n]
    by_cases hn : n = k
    · subst hn
      rw [if_pos hst]
    · rw [if_neg (hd n le_rfl (by omega))]
      exact ih (n + 1) (by omega) (by omega) (fun j hj1 hj2 => hd j (by omega) hj2) hst

/-- If the scope is cancelled after `k` ticks none of which stabilized, the
sampling loop returns the cancellation outcome. -/
theorem waitStableLoop_canceled (samples : Nat → Except Err ShapeV)
    (g : Nat → ShapeV) (hs : ∀ i, samples i = .ok (g (i + 1))) :
    ∀ (k n : Nat) (rest : List TickEv),
      (∀ j, n ≤ j → j < n + k → g j ≠ g (j + 1)) →
      waitStableLoop samples (List.replicate k .tick ++ .cancel :: rest)
        (g n) n = .canceled := by
  intro k
  induction k with
  | zero => intro n rest _; simp [waitStableLoop]
  | succ k ih =>
    intro n rest hd
    rw [List.replicate_succ, List.cons_append]
    simp only [waitStableLoop, hs n]
    rw [if_neg (hd n le_rfl (by omega))]
    exact ih (n + 1) rest (fun j h1 h2 => hd j (by omega) (by omega))

/-- A sampling error on the `k`-th in-loop sample (after `k` differing
samples) is returned immediately. -/
theorem waitStableLoop_sampleFailed (samples : Nat → Except Err ShapeV)
    (g : Nat → ShapeV) (e : Err) :
    ∀ (k n : Nat),
      (∀ j, n ≤ j → j < n + k → samples j = .ok (g (j + 1))) →
      (∀ j, n ≤ j → j < n + k → g j ≠ g (j + 1)) →
      samples (n + k) = .error e →
      waitStableLoop samples (List.replicate (k + 1) .tick) (g n) n
        = .sampleFailed e := by
  intro k
  induction k with
  | zero =>
    intro n _ _ herr
    rw [List.replicate_succ]
    simp [waitStableLoop, show samples n = .error e from by simpa using herr]
  | succ k ih =>
    intro n hsmp hd herr
    rw [List.replicate_succ]
    simp only [waitStableLoop, hsmp n le_rfl (by omega)]
    rw [if_neg (hd n le_rfl (by omega))]
    exact ih (n + 1) (fun j h1 h2 => hsmp j (by omega) (by omega))
      (fun j h1 h2 => hd j (by omega) (by omega))
      (by simpa [Nat.add_assoc, Nat.add_comm 1 k] using herr)

/-- Claim C7: `WaitStable` first waits for visibility (a visibility error is
returned and nothing is sampled), takes an initial shape sample (its error
is returned immediately), then samples on the fixed tick schedule: it
returns success only once two consecutive samples are structurally equal —
never while consecutive samples keep differing — checks cancellation once
per tick and returns the cancellation outcome when the scope is cancelled
before any stabilization, and returns an in-loop sampling error
immediately. -/
theorem C7_wait_stable :
    (∀ (e : Err) (shape0 : Except Err ShapeV) (samples : Nat → Except Err ShapeV)
        (evs : List TickEv),
      Element.WaitStable (.error e) shape0 samples evs = .visFailed e) ∧
    (∀ (e : Err) (samples : Nat → Except Err ShapeV) (evs : List TickEv),
      Element.WaitStable (.ok ()) (.error e) samples evs = .sampleFailed e) ∧
    (∀ (g : Nat → ShapeV) (samples : Nat → Except Err ShapeV),
      (∀ i, samples i = .ok (g (i + 1))) → (∀ i, g i ≠ g (i + 1)) →
      ∀ evs : List TickEv,
        Element.WaitStable (.ok ()) (.ok (g 0)) samples evs ≠ .ok) ∧
    (∀ (g : Nat → ShapeV) (samples : Nat → Except Err ShapeV) (k m : Nat),
      (∀ i, samples i = .ok (g (i + 1))) →
      (∀ j, j < k → g j ≠ g (j + 1)) → g k = g (k + 1) → k < m →
      Element.WaitStable (.ok ()) (.ok (g 0)) samples
        (List.replicate m .tick) = .ok) ∧
    (∀ (g : Nat → ShapeV) (samples : Nat → Except Err ShapeV) (k : Nat)
        (rest : List TickEv),
      (∀ i, samples i = .ok (g (i + 1))) →
      (∀ j, j < k → g j ≠ g (j + 1)) →
      Element.WaitStable (.ok ()) (.ok (g 0)) samples
        (List.replicate k .tick ++ .cancel :: rest) = .canceled) ∧
    (∀ (g : Nat → ShapeV) (samples : Nat → Except Err ShapeV) (k : Nat) (e : Err),
      (∀ j, j < k → samples j = .ok (g (j + 1))) →
      (∀ j, j < k → g j ≠ g (j + 1)) → samples k = .error e →
      Element.WaitStable (.ok ()) (.ok (g 0)) samples
        (List.replicate (k + 1) .tick) = .sampleFailed e) := by
  refine ⟨fun _ _ _ _ => rfl, fun _ _ _ => rfl, ?_, ?_, ?_, ?_⟩
  · intro g samples hs hd evs
    exact waitStableLoop_ne_ok samples g hs hd evs 0
  · intro g samples k m hs hd hst hkm
    exact waitStableLoop_ok_of_stable samples g k hs m 0 (by omega) (by omega)
      (fun j _ hj => hd j hj) hst
  · intro g samples k rest hs hd
    exact waitStableLoop_canceled samples g hs k 0 rest (fun j _ hj => hd j (by omega))
  · intro g samples k e hsmp hd herr
    exact waitStableLoop_sampleFailed samples g e k 0
      (fun j _ hj => hsmp j (by omega)) (fun j _ hj => hd j (by omega))
      (by simpa using herr)

/-- Witness for C7 at a concrete input: the shape changes once (from empty
to one quad) and then stays constant; with two ticks available,
`WaitStable` succeeds. -/
theorem C7_wait_stable_witness :
    Element.WaitStable (.ok ())
        (.ok ((fun n => if n = 0 then ([] : ShapeV) else [⟨1, 1⟩]) 0))
        (fun _ => .ok [⟨1, 1⟩]) (List.replicate 2 .tick) = .ok :=
  C7_wait_stable.2.2.2.1 (fun n => if n = 0 then [] else [⟨1, 1⟩])
    (fun _ => .ok [⟨1, 1⟩]) 1 2 (fun i => by simp)
    (fun j hj => by interval_cases j; simp) (by simp) (by omega)

end Rod
